import Mathlib

/-!
Verification of the synthetic QA generation engine: a shallow embedding of the core of the `AI-Alignment-And-Evaluation`
repository (`src/synthetic_data_generation/`): the context assembler, the
verification chains, the generation/retry state machine
(`BaseGenerator` / `BaseSingleDocumentQAGenerator`), the batch allocator
(`QAFactory`) and the diversity length sampler (`DiversityGenerator`).

External capabilities (Azure search backend, the LLM completion client and
the random source) are modelled as explicit oracle parameters; machine
floats are modelled as exact rationals and Python `int()` truncation as
`pyInt`.
-/

set_option autoImplicit false

namespace QAGen

/-! ### Data model (src/synthetic_data_generation/models) -/

/-- A retrieved search record / document chunk.  Mirrors the fields the
engine reads through the `SearchService` accessors
(`get_search_record_id`, `get_search_record_title`,
`get_search_record_content`) plus the document/part metadata used by the
retrieval backend. -/
structure Fragment where
  id : String
  documentId : String
  partNumber : Nat
  title : String
  content : String
deriving DecidableEq, Repr

/-- Model of `models.qa_models.QA`. -/
structure QA where
  question : String
  ground_truth_answer : String
  chunk_ids : List String
deriving DecidableEq, Repr

/-- Model of `models.qa_verification_models.QAVerificationResult`. -/
structure QAVerificationResult where
  is_correct : Bool
  reason : String
deriving DecidableEq, Repr

/-- Model of `models.diversity_models.DiversityInjection`. -/
structure DiversityInjection where
  response_length : Int
  tone_injection : String
  disruptive_injection : String
  language_injection : String
deriving DecidableEq, Repr

/-- Model of `models.diversity_models.LengthDistributionConfig` (floats as ℚ). -/
structure LengthDistributionConfig where
  mean : ℚ
  sigma : ℚ
  shift : ℚ
deriving DecidableEq

/-- Model of `models.qa_models.QATagged`; the `tags` dict is modelled as an
association list in insertion order. -/
structure QATagged where
  question : String
  ground_truth_answer : String
  tags : List (String × String)
  diversity_injection : DiversityInjection
  chunk_ids : List String
  chunk_content : List String
deriving DecidableEq, Repr

/-- Python `int()` applied to a real value: truncation toward zero. -/
def pyInt (q : ℚ) : ℤ :=
  if 0 ≤ q then ⌊q⌋ else ⌈q⌉

/-! ### Context assembly (`BaseGenerator._build_context`)

The Python code appends plain strings to `context_parts`; we keep the
parts as a tagged list (`ContextPart`) and render each part exactly as the
source formats it, so that title headers and chunk blocks can be counted
without string parsing. -/

/-- One entry of the `context_parts` list built by `_build_context`. -/
inductive ContextPart where
  | header (title : String)
  | chunk (id content : String)
deriving DecidableEq, Repr

/-- Rendering of a context part as the exact string the source appends. -/
def ContextPart.render : ContextPart → String
  | .header t => "Document Title: " ++ t
  | .chunk i c => "CHUNK_ID: " ++ i ++ "\nContent: " ++ c

/-- Test for title headers: `true` on headers, `false` on chunk blocks. -/
def ContextPart.isHeader : ContextPart → Bool
  | .header _ => true
  | .chunk _ _ => false

/-- The loop body of `BaseGenerator._build_context`: walk the results,
emitting a `Document Title:` line whenever the current title differs from
`previous_title` (and is non-empty — Python truthiness of
`if current_title:`), and always emitting the `CHUNK_ID`/`Content` block.
`prev` is `none` before the first record, matching `previous_title = None`. -/
def buildContextParts : Option String → List Fragment → List ContextPart
  | _, [] => []
  | prev, f :: rest =>
    if some f.title = prev then
      .chunk f.id f.content :: buildContextParts prev rest
    else
      (if f.title ≠ "" then [ContextPart.header f.title] else [])
        ++ .chunk f.id f.content :: buildContextParts (some f.title) rest

/-- Model of `BaseGenerator._build_context`: raises
`ValueError("No search results found. Cannot build context.")` when the
iterable is empty, else joins the parts with blank lines. -/
def buildContext (frags : List Fragment) : Except String String :=
  if frags.isEmpty then
    .error "No search results found. Cannot build context."
  else
    .ok (String.intercalate "\n\n" ((buildContextParts none frags).map ContextPart.render))

/-- Number of title-header lines among the context parts. -/
def headerCount (parts : List ContextPart) : Nat :=
  (parts.filter ContextPart.isHeader).length

/-- Number of positions at which the fragment title differs from the
previous one (the first fragment always differs from `prev = none`). -/
def titleChanges : Option String → List Fragment → Nat
  | _, [] => 0
  | prev, f :: rest =>
    (if some f.title = prev then 0 else 1) + titleChanges (some f.title) rest

/-- Number of positions at which the fragment title differs from the
previous one and is non-empty — the positions where `_build_context`
actually emits a header (`if current_title:` suppresses the header for an
empty title while still updating `previous_title`). -/
def headerChanges : Option String → List Fragment → Nat
  | _, [] => 0
  | prev, f :: rest =>
    (if some f.title ≠ prev ∧ f.title ≠ "" then 1 else 0) + headerChanges (some f.title) rest

/-- The chunk blocks of the parts list, projected to (id, content). -/
def chunkBlocks (parts : List ContextPart) : List (String × String) :=
  parts.filterMap fun p =>
    match p with
    | .header _ => none
    | .chunk i c => some (i, c)

/-! Helper lemmas about the context builder. -/

theorem headerCount_nil : headerCount [] = 0 := rfl

theorem headerCount_cons (p : ContextPart) (ps : List ContextPart) :
    headerCount (p :: ps) = (if p.isHeader then 1 else 0) + headerCount ps := by
  unfold headerCount
  cases h : p.isHeader <;> simp [List.filter_cons, h, Nat.add_comm]

/-- `_build_context` emits exactly one header per position whose title
differs from the previous one and is non-empty. -/
theorem headerCount_buildContextParts (frags : List Fragment) :
    ∀ prev : Option String,
      headerCount (buildContextParts prev frags) = headerChanges prev frags := by
  induction frags with
  | nil => intro prev; rfl
  | cons f rest ih =>
    intro prev
    by_cases hp : some f.title = prev
    · have hcond : ¬ (some f.title ≠ prev ∧ f.title ≠ "") := fun h => h.1 hp
      simp [buildContextParts, headerChanges, hp, hcond, headerCount_cons,
        ContextPart.isHeader, hp ▸ ih prev, ih]
    · by_cases ht : f.title = ""
      · have hcond : ¬ (some f.title ≠ prev ∧ f.title ≠ "") := fun h => h.2 ht
        have hp' : ¬ some "" = prev := ht ▸ hp
        simp [buildContextParts, headerChanges, hp, hp', ht, hcond, headerCount_cons,
          ContextPart.isHeader, ih]
      · simp [buildContextParts, headerChanges, hp, ht, headerCount_cons,
          ContextPart.isHeader, ih]

theorem chunkBlocks_cons_header (t : String) (ps : List ContextPart) :
    chunkBlocks (.header t :: ps) = chunkBlocks ps := by
  simp [chunkBlocks, List.filterMap_cons]

theorem chunkBlocks_cons_chunk (i c : String) (ps : List ContextPart) :
    chunkBlocks (.chunk i c :: ps) = (i, c) :: chunkBlocks ps := by
  simp [chunkBlocks, List.filterMap_cons]

/-- Every fragment contributes exactly one chunk block, in order, with its
id and content, regardless of titles. -/
theorem chunkBlocks_buildContextParts (frags : List Fragment) :
    ∀ prev : Option String,
      chunkBlocks (buildContextParts prev frags) = frags.map fun f => (f.id, f.content) := by
  induction frags with
  | nil => intro prev; rfl
  | cons f rest ih =>
    intro prev
    rw [buildContextParts]
    by_cases hp : some f.title = prev
    · rw [if_pos hp]
      simp [chunkBlocks_cons_chunk, ih]
    · rw [if_neg hp]
      by_cases ht : f.title = ""
      · simp [ht, chunkBlocks_cons_chunk, ih]
      · simp [ht, chunkBlocks_cons_header, chunkBlocks_cons_chunk, ih]

/-- The three-fragment example from the spec: two fragments of document A
titled `T` (positions 0 and 1) followed by one fragment of document B
titled `U`. -/
def fragA0 : Fragment := ⟨"a0", "A", 0, "T", "alpha zero"⟩

def fragA1 : Fragment := ⟨"a1", "A", 1, "T", "alpha one"⟩

def fragB0 : Fragment := ⟨"b0", "B", 0, "U", "beta zero"⟩

/-- A fragment of document C with the non-empty title `T`. -/
def fragT : Fragment := ⟨"t0", "C", 0, "T", "gamma zero"⟩

/-- A fragment of document C whose title is the empty string. -/
def fragEmptyTitle : Fragment := ⟨"t1", "C", 1, "", "gamma one"⟩

/-- A second fragment of document C titled `T`, after the empty title. -/
def fragT2 : Fragment := ⟨"t2", "C", 2, "T", "gamma two"⟩

/-! ### Verification chains
(`SingleHopOneDocGenerator._verify_qa`, `MultiHopOneDocGenerator._verify_qa`)

The two LLM-backed predicates (`_verify_qa_chunk_connection` and
`_verify_qa_question_requires_multi_hop`) are opaque judgments of the LLM
capability; they enter the model as oracle parameters `conn` and `mh`. -/

/-- The failure message `_verify_qa` wraps around a failing chunk-connection
verdict. -/
def connFailReason (qa : QA) (detail : String) : String :=
  "Answer '" ++ qa.ground_truth_answer
    ++ "' not found in specified chunks. Detailed reason: " ++ detail

/-- The failure message `MultiHopOneDocGenerator._verify_qa` wraps around a
failing multi-hop verdict. -/
def multiHopFailReason (qa : QA) (detail : String) : String :=
  "Question '" ++ qa.question
    ++ "' does not require multi-hop reasoning. Detailed reason: " ++ detail

/-- Model of `SingleHopOneDocGenerator._verify_qa`: the uniqueness check is commented
out in the source; only the chunk-connection predicate runs. -/
def verifySingleHop (conn : QA → QAVerificationResult) (qa : QA) : QAVerificationResult :=
  let answer_has_chunk_connection := conn qa
  if ¬ answer_has_chunk_connection.is_correct then
    ⟨false, connFailReason qa answer_has_chunk_connection.reason⟩
  else
    ⟨true, "All validation checks passed."⟩

/-- Model of `MultiHopOneDocGenerator._verify_qa`: chunk connection first, then the
multi-hop predicate; the uniqueness check is commented out in the source. -/
def verifyMultiHop (conn mh : QA → QAVerificationResult) (qa : QA) : QAVerificationResult :=
  let answer_has_chunk_connection := conn qa
  if ¬ answer_has_chunk_connection.is_correct then
    ⟨false, connFailReason qa answer_has_chunk_connection.reason⟩
  else
    let question_requires_multi_hop := mh qa
    if ¬ question_requires_multi_hop.is_correct then
      ⟨false, multiHopFailReason qa question_requires_multi_hop.reason⟩
    else
      ⟨true, "All validation checks passed."⟩

/-! ### The generation state machine
(`BaseSingleDocumentQAGenerator.generate`, `BaseGenerator._retry_logic`)

One generation attempt consumes: the seed chunks the retrieval backend
returned (already sorted by part number — sorting happens inside the
opaque `SearchService`), the LLM's structured completion (either a drafted
`QA` or an invocation of the `_retry_logic` abstain tool), and the
`DiversityInjection` sampled for the attempt.  The strategy supplies the
verification chain, the fixed tag set and the fetch-by-ids capability. -/

/-- Outcome of the structured LLM completion in `generate`: either the
abstain tool call (`_retry_logic`) or a parsed `QA` draft. -/
inductive LLMDraftResult where
  | abstain
  | draft (qa : QA)
deriving DecidableEq, Repr

/-- The per-attempt inputs drawn from the opaque capabilities. -/
structure AttemptEnv where
  seedChunks : List Fragment
  llm : LLMDraftResult
  diversity : DiversityInjection

/-- The strategy-specific pieces of a generator instance. -/
structure GeneratorSpec where
  verify : QA → QAVerificationResult
  tags : List (String × String)
  fetchByIds : List String → List Fragment

/-- Model of `BaseSingleDocumentQAGenerator._get_chunk_content_by_ids`. -/
def getChunkContentByIds (g : GeneratorSpec) (chunk_ids : List String) : List String :=
  (g.fetchByIds chunk_ids).map Fragment.content

/-- Result of one body execution of `generate` before `_retry_logic` is
consulted: either an accepted `QATagged` or a retry transition. -/
inductive AttemptResult where
  | accepted (qat : QATagged)
  | retry
deriving DecidableEq, Repr

/-- One attempt of `BaseSingleDocumentQAGenerator.generate`: build the
context over the seed chunks (an exception transitions to retry), invoke
the LLM (the abstain tool call transitions to retry before any
verification), verify the draft (a failing chain transitions to retry),
and otherwise construct the `QATagged`. -/
def generateAttempt (g : GeneratorSpec) (env : AttemptEnv) : AttemptResult :=
  match buildContext env.seedChunks with
  | .error _ => .retry
  | .ok _context =>
    match env.llm with
    | .abstain => .retry
    | .draft qa =>
      let verify_qa_result := g.verify qa
      if ¬ verify_qa_result.is_correct then
        .retry
      else
        .accepted
          { question := qa.question
            ground_truth_answer := qa.ground_truth_answer
            tags := g.tags
            diversity_injection := env.diversity
            chunk_ids := qa.chunk_ids
            chunk_content := getChunkContentByIds g qa.chunk_ids }

/-- Model of `BaseGenerator.MAX_RETRIES`. -/
def MAX_RETRIES : Nat := 10

/-- Result of one `generate()` call including `_retry_logic` recursion:
acceptance carries the instance's `retry_count` and the number of
`generate` invocations performed so far (both persist on the instance);
`fatal` is `sys.exit(1)`, carrying the same two counters at exit. -/
inductive RunResult where
  | accepted (qat : QATagged) (retryCount callIdx : Nat)
  | fatal (retryCount callIdx : Nat)
deriving DecidableEq, Repr

/-- Model of `generate()` together with `_retry_logic`: run the attempt at index
`callIdx`; on retry, while `retry_count < MAX_RETRIES`, increment the
counter and re-enter `generate`, otherwise `sys.exit(1)`.  `envs` is the
stream of per-attempt capability outcomes, indexed by the number of
`generate` invocations the instance has made. -/
def runGenerate (g : GeneratorSpec) (envs : Nat → AttemptEnv)
    (retryCount callIdx : Nat) : RunResult :=
  match generateAttempt g (envs callIdx) with
  | .accepted qat => .accepted qat retryCount (callIdx + 1)
  | .retry =>
    if retryCount < MAX_RETRIES then
      runGenerate g envs (retryCount + 1) (callIdx + 1)
    else
      .fatal retryCount (callIdx + 1)
termination_by MAX_RETRIES + 1 - retryCount
decreasing_by omega

/-! ### The batch allocator (`QAFactory`) -/

/-- Model of the `QAFactory.__init__` validation over the `(generator, percentage)`
list: the percentages must sum to 1.0 within ±0.01 and each must lie in
`[0, 1]`, else a `ValueError` is raised before any generation work; the
generator payload is arbitrary (`α`). -/
def mkQAFactory {α : Type} (generators : List (α × ℚ)) : Except String (List (α × ℚ)) :=
  let total_percentage := (generators.map Prod.snd).sum
  if |total_percentage - 1| > 1/100 then
    .error "Generator percentages must sum to 1.0"
  else if generators.any (fun gp => ¬ (0 ≤ gp.2 ∧ gp.2 ≤ 1)) then
    .error "Percentage must be between 0.0 and 1.0"
  else
    .ok generators

/-- A generator instance as the factory drives it: its strategy pieces plus
the stream of per-attempt capability outcomes.  The instance's mutable
`retry_count` / call index are threaded explicitly as `(retryCount, callIdx)`
pairs; `__init__` sets them to `(0, 0)`. -/
structure GenInstance where
  spec : GeneratorSpec
  envs : Nat → AttemptEnv

/-- The inner loop of `QAFactory.generate`: call `generator.generate()`
`n` times on one instance, threading the instance state; a fatal exit from
`_retry_logic` (`sys.exit(1)`) aborts everything. -/
def runSamples (inst : GenInstance) (st : Nat × Nat) :
    Nat → Except Unit (List QATagged × (Nat × Nat))
  | 0 => .ok ([], st)
  | n + 1 =>
    match runGenerate inst.spec inst.envs st.1 st.2 with
    | .fatal _ _ => .error ()
    | .accepted qat rc ci =>
      (runSamples inst (rc, ci) n).map fun lst => (qat :: lst.1, lst.2)

/-- Model of `QAFactory.generate(number_of_samples)`: for each generator in list
order compute `int(number_of_samples * percentage)` and request that many
samples sequentially, appending each to the output as it completes (a zero
count is skipped, which appends nothing). -/
def factoryGenerate (generators : List (GenInstance × ℚ)) (number_of_samples : Nat) :
    Except Unit (List QATagged) :=
  match generators with
  | [] => .ok []
  | (inst, percentage) :: rest =>
    let num_samples_for_generator := (pyInt (number_of_samples * percentage)).toNat
    match runSamples inst (0, 0) num_samples_for_generator with
    | .error _ => .error ()
    | .ok (samples, _) => (factoryGenerate rest number_of_samples).map (samples ++ ·)

/-- The per-strategy sample counts of `QAFactory.generate`. -/
def factoryCounts (percentages : List ℚ) (number_of_samples : Nat) : List Nat :=
  percentages.map fun p => (pyInt (number_of_samples * p)).toNat

/-! ### The diversity length sampler (`DiversityGenerator._get_response_length`) -/

/-- Model of `DiversityGenerator._get_response_length` with the value returned by
`np.random.lognormal(mean, sigma)` abstracted as the oracle `draw`:
`int(max(shift, draw + shift))`. -/
def getResponseLength (config : LengthDistributionConfig) (draw : ℚ) : ℤ :=
  let shift := config.shift
  let length := draw + shift
  pyInt (max shift length)

/-! ### Helper lemmas about the retry state machine -/

theorem runGenerate_accepted {g : GeneratorSpec} {envs : Nat → AttemptEnv}
    {qat : QATagged} (rc ci : Nat)
    (h : generateAttempt g (envs ci) = .accepted qat) :
    runGenerate g envs rc ci = .accepted qat rc (ci + 1) := by
  rw [runGenerate, h]

theorem runGenerate_retry_step {g : GeneratorSpec} {envs : Nat → AttemptEnv}
    {rc ci : Nat} (h : generateAttempt g (envs ci) = .retry)
    (hrc : rc < MAX_RETRIES) :
    runGenerate g envs rc ci = runGenerate g envs (rc + 1) (ci + 1) := by
  rw [runGenerate, h]
  simp [hrc]

theorem runGenerate_retry_fatal {g : GeneratorSpec} {envs : Nat → AttemptEnv}
    {rc ci : Nat} (h : generateAttempt g (envs ci) = .retry)
    (hrc : ¬ rc < MAX_RETRIES) :
    runGenerate g envs rc ci = .fatal rc (ci + 1) := by
  rw [runGenerate, h]
  simp [hrc]

/-- A consecutive block of `k` retrying attempts advances both the retry
counter and the call index by `k`, provided the budget is not exceeded. -/
theorem runGenerate_retry_chain (g : GeneratorSpec) (envs : Nat → AttemptEnv) :
    ∀ k rc ci, (∀ i, ci ≤ i → i < ci + k → generateAttempt g (envs i) = .retry) →
      rc + k ≤ MAX_RETRIES →
      runGenerate g envs rc ci = runGenerate g envs (rc + k) (ci + k) := by
  intro k
  induction k with
  | zero => intro rc ci _ _; rfl
  | succ k ih =>
    intro rc ci hretry hbudget
    have h0 : generateAttempt g (envs ci) = .retry :=
      hretry ci (Nat.le_refl ci) (by omega)
    rw [runGenerate_retry_step h0 (by omega)]
    have := ih (rc + 1) (ci + 1) (fun i h1 h2 => hretry i (by omega) (by omega)) (by omega)
    rw [this]
    congr 1 <;> omega

/-- If every attempt from call index `ci` on retries, a run entered with
`retry_count = rc ≤ MAX_RETRIES` performs exactly the remaining
`MAX_RETRIES - rc` retries and then exits fatally with the counter at
`MAX_RETRIES`. -/
theorem runGenerate_fatal_of_retries (g : GeneratorSpec) (envs : Nat → AttemptEnv)
    (ci₀ : Nat) (h : ∀ i, ci₀ ≤ i → generateAttempt g (envs i) = .retry)
    (rc ci : Nat) (hci : ci₀ ≤ ci) (hrc : rc ≤ MAX_RETRIES) :
    runGenerate g envs rc ci = .fatal MAX_RETRIES (ci + (MAX_RETRIES - rc) + 1) := by
  have hchain := runGenerate_retry_chain g envs (MAX_RETRIES - rc) rc ci
    (fun i h1 _ => h i (by omega)) (by omega)
  rw [hchain]
  have hfin : rc + (MAX_RETRIES - rc) = MAX_RETRIES := by omega
  rw [hfin]
  exact runGenerate_retry_fatal (h _ (by omega)) (by omega)

/-- If the strategy's verification chain rejects every candidate, every
single attempt ends in the retry transition, whatever the capabilities
returned. -/
theorem generateAttempt_retry_of_verify_false {g : GeneratorSpec}
    (hverify : ∀ qa, (g.verify qa).is_correct = false) (env : AttemptEnv) :
    generateAttempt g env = .retry := by
  unfold generateAttempt
  cases hctx : buildContext env.seedChunks with
  | error e => rfl
  | ok c =>
    cases hllm : env.llm with
    | abstain => rfl
    | draft qa => simp [hverify qa]

/-- With an always-rejecting verification chain, a fresh generator run
performs exactly `MAX_RETRIES` retries (`MAX_RETRIES + 1` invocations of
`generate`) and then exits fatally. -/
theorem runGenerate_fatal_of_verify_false {g : GeneratorSpec}
    (envs : Nat → AttemptEnv)
    (hverify : ∀ qa, (g.verify qa).is_correct = false) :
    runGenerate g envs 0 0 = .fatal MAX_RETRIES (MAX_RETRIES + 1) := by
  have := runGenerate_fatal_of_retries g envs 0
    (fun i _ => generateAttempt_retry_of_verify_false hverify (envs i))
    0 0 (Nat.le_refl 0) (by omega)
  simpa using this

/-! ### Helper lemmas about the batch allocator -/

/-- An instance whose every attempt is accepted yields exactly the
requested number of samples, never consuming retry budget. -/
theorem runSamples_of_all_accepted (inst : GenInstance)
    (hacc : ∀ i, ∃ qat, generateAttempt inst.spec (inst.envs i) = .accepted qat) :
    ∀ n st, ∃ l, runSamples inst st n = .ok (l, (st.1, st.2 + n)) ∧ l.length = n := by
  intro n
  induction n with
  | zero => intro st; exact ⟨[], rfl, rfl⟩
  | succ n ih =>
    intro st
    obtain ⟨qat, hq⟩ := hacc st.2
    obtain ⟨l, hl, hlen⟩ := ih (st.1, st.2 + 1)
    refine ⟨qat :: l, ?_, by simp [hlen]⟩
    have hrun : runGenerate inst.spec inst.envs st.1 st.2 = .accepted qat st.1 (st.2 + 1) :=
      runGenerate_accepted st.1 st.2 hq
    simp only [runSamples, hrun, hl, Except.map]
    have harg : st.2 + 1 + n = st.2 + (n + 1) := by omega
    rw [harg]

/-- A factory whose every generator accepts every attempt produces a batch
whose length is the sum of the per-strategy truncated counts. -/
theorem factoryGenerate_length (generators : List (GenInstance × ℚ))
    (hacc : ∀ gp ∈ generators, ∀ i,
      ∃ qat, generateAttempt gp.1.spec (gp.1.envs i) = .accepted qat)
    (number_of_samples : Nat) :
    ∃ l, factoryGenerate generators number_of_samples = .ok l ∧
      l.length = (factoryCounts (generators.map Prod.snd) number_of_samples).sum := by
  induction generators with
  | nil => exact ⟨[], rfl, rfl⟩
  | cons gp rest ih =>
    obtain ⟨inst, percentage⟩ := gp
    obtain ⟨l, hl, hlen⟩ := ih (fun q hq i => hacc q (List.mem_cons_of_mem _ hq) i)
    obtain ⟨l0, hl0, hlen0⟩ := runSamples_of_all_accepted inst
      (hacc (inst, percentage) (List.mem_cons_self _ _))
      ((pyInt (number_of_samples * percentage)).toNat) (0, 0)
    refine ⟨l0 ++ l, ?_, ?_⟩
    · simp only [factoryGenerate, hl0, hl, Except.map]
    · simp [hlen0, hlen, factoryCounts]

/-- Bound on the per-strategy counts: the sum is bounded by
`⌊total * Σ proportions⌋` whenever all proportions are non-negative. -/
theorem sum_factoryCounts_le_floor (number_of_samples : Nat) :
    ∀ props : List ℚ, (∀ p ∈ props, 0 ≤ p) →
      ((factoryCounts props number_of_samples).sum : ℤ) ≤
        ⌊(number_of_samples : ℚ) * props.sum⌋ := by
  intro props
  induction props with
  | nil => intro _; simp [factoryCounts]
  | cons p ps ih =>
    intro hpos
    have hp : 0 ≤ p := hpos p (List.mem_cons_self _ _)
    have hps : ∀ q ∈ ps, 0 ≤ q := fun q hq => hpos q (List.mem_cons_of_mem _ hq)
    have hmul : (0 : ℚ) ≤ (number_of_samples : ℚ) * p :=
      mul_nonneg (by positivity) hp
    have hfloor : (0 : ℤ) ≤ ⌊(number_of_samples : ℚ) * p⌋ :=
      Int.floor_nonneg.mpr hmul
    have hhead : ((pyInt (number_of_samples * p)).toNat : ℤ) =
        ⌊(number_of_samples : ℚ) * p⌋ := by
      rw [pyInt, if_pos hmul, Int.toNat_of_nonneg hfloor]
    have htail := ih hps
    have hadd : ⌊(number_of_samples : ℚ) * p⌋ + ⌊(number_of_samples : ℚ) * ps.sum⌋ ≤
        ⌊(number_of_samples : ℚ) * p + (number_of_samples : ℚ) * ps.sum⌋ :=
      Int.le_floor_add _ _
    have hdistrib : (number_of_samples : ℚ) * (p :: ps).sum =
        (number_of_samples : ℚ) * p + (number_of_samples : ℚ) * ps.sum := by
      rw [List.sum_cons, mul_add]
    rw [hdistrib]
    calc ((factoryCounts (p :: ps) number_of_samples).sum : ℤ)
        = ((pyInt (number_of_samples * p)).toNat : ℤ)
            + ((factoryCounts ps number_of_samples).sum : ℤ) := by
          simp [factoryCounts]
      _ ≤ ⌊(number_of_samples : ℚ) * p⌋ + ⌊(number_of_samples : ℚ) * ps.sum⌋ := by
          rw [hhead]; exact add_le_add_left htail _
      _ ≤ _ := hadd

/-- When the proportions are non-negative and sum to at most 1, the batch
allocator's per-strategy counts sum to at most the requested total. -/
theorem sum_factoryCounts_le_total (props : List ℚ) (number_of_samples : Nat)
    (hpos : ∀ p ∈ props, 0 ≤ p) (hsum : props.sum ≤ 1) :
    (factoryCounts props number_of_samples).sum ≤ number_of_samples := by
  have h1 := sum_factoryCounts_le_floor number_of_samples props hpos
  have h2 : ⌊(number_of_samples : ℚ) * props.sum⌋ ≤ (number_of_samples : ℤ) := by
    have hle : (number_of_samples : ℚ) * props.sum ≤ (number_of_samples : ℚ) := by
      calc (number_of_samples : ℚ) * props.sum ≤ (number_of_samples : ℚ) * 1 :=
            mul_le_mul_of_nonneg_left hsum (by positivity)
        _ = (number_of_samples : ℚ) := mul_one _
    calc ⌊(number_of_samples : ℚ) * props.sum⌋ ≤ ⌊(number_of_samples : ℚ)⌋ :=
          Int.floor_le_floor hle
      _ = (number_of_samples : ℤ) := Int.floor_natCast _
  exact_mod_cast le_trans h1 h2

/-! ### Concrete fixtures -/

/-- A fixed diversity profile used in concrete runs. -/
def dummyDiv : DiversityInjection := ⟨3, "", "", "English"⟩

/-- The tag set of `SingleHopOneDocGenerator._get_tags()`. -/
def singleHopTags : List (String × String) := [("question_type", "single_hop_same_doc")]

/-- The tag set of `MultiHopOneDocGenerator._get_tags()`. -/
def multiHopTags : List (String × String) := [("question_type", "multi_hop_same_doc")]

/-- A chunk-connection oracle that rejects everything. -/
def alwaysFailVerdict : QA → QAVerificationResult := fun _ => ⟨false, "nope"⟩

/-- A predicate oracle that accepts everything. -/
def alwaysPassVerdict : QA → QAVerificationResult := fun _ => ⟨true, "yes"⟩

/-- A strategy whose verification chain rejects every candidate. -/
def failSpec : GeneratorSpec := ⟨alwaysFailVerdict, singleHopTags, fun _ => []⟩

/-- A strategy whose verification chain accepts every candidate. -/
def acceptSpec : GeneratorSpec := ⟨alwaysPassVerdict, singleHopTags, fun _ => []⟩

/-- An attempt environment with one seed fragment and a drafted candidate. -/
def draftEnv : AttemptEnv := ⟨[fragA0], .draft ⟨"q", "a", ["a0"]⟩, dummyDiv⟩

/-- A generator instance every attempt of which is accepted. -/
def acceptInst : GenInstance := ⟨acceptSpec, fun _ => draftEnv⟩

/-- The `QATagged` produced by `acceptInst` on each accepted attempt. -/
def acceptQat : QATagged := ⟨"q", "a", singleHopTags, dummyDiv, ["a0"], []⟩

/-- The seed fragment of the spec's end-to-end scenario. -/
def feeFrag : Fragment := ⟨"c1", "D1", 0, "Fees", "Fee is $500"⟩

/-- The candidate of the spec's end-to-end scenario. -/
def feeQA : QA := ⟨"What is the fee?", "$500", ["c1"]⟩

/-- Fetch-by-ids capability returning the fee fragment for `["c1"]`. -/
def feeFetch : List String → List Fragment := fun ids => if ids = ["c1"] then [feeFrag] else []

/-- The single-fragment strategy with a mocked grounding verifier that
always passes. -/
def feeSpec : GeneratorSpec := ⟨verifySingleHop alwaysPassVerdict, singleHopTags, feeFetch⟩

/-- The attempt environment of the spec's end-to-end scenario. -/
def feeEnv : AttemptEnv := ⟨[feeFrag], .draft feeQA, dummyDiv⟩

/-- The `QATagged` the end-to-end scenario must emit. -/
def feeTagged : QATagged := ⟨"What is the fee?", "$500", singleHopTags, dummyDiv, ["c1"], ["Fee is $500"]⟩

/-- A candidate the picky verifier accepts. -/
def goodQA : QA := ⟨"good", "a", ["a0"]⟩

/-- A candidate the picky verifier rejects. -/
def badQA : QA := ⟨"bad", "a", ["a0"]⟩

/-- A strategy accepting exactly the candidates whose question is "good". -/
def pickySpec : GeneratorSpec := ⟨fun qa => ⟨qa.question == "good", "picky"⟩, singleHopTags, fun _ => []⟩

/-- Attempt stream drafting a good candidate only at calls 6 and 15. -/
def pickyEnvs : Nat → AttemptEnv :=
  fun i => ⟨[fragA0], .draft (if i = 6 ∨ i = 15 then goodQA else badQA), dummyDiv⟩

/-- Generator instance over `pickySpec` and `pickyEnvs`. -/
def pickyInst : GenInstance := ⟨pickySpec, pickyEnvs⟩

/-- The `QATagged` produced when the picky verifier accepts `goodQA`. -/
def pickyQat : QATagged := ⟨"good", "a", singleHopTags, dummyDiv, ["a0"], []⟩

/-- Attempt stream drafting a good candidate only at call 2. -/
def mixedEnvs : Nat → AttemptEnv :=
  fun i => ⟨[fragA0], .draft (if i = 2 then goodQA else badQA), dummyDiv⟩

/-- Generator instance over `pickySpec` and `mixedEnvs`. -/
def mixedInst : GenInstance := ⟨pickySpec, mixedEnvs⟩

/-- The proportion 0.5025, which passes plan validation when used twice. -/
def halfPlus : ℚ := 5025 / 10000

/-- Length of a produced batch, if the run did not abort. -/
def batchLength (r : Except Unit (List QATagged)) : Option Nat :=
  match r with
  | .ok l => some l.length
  | .error _ => none

/-- Length-distribution configuration with the non-integer shift 3.5. -/
def badConfig : LengthDistributionConfig := ⟨2, 4/5, 7/2⟩

/-- Length-distribution configuration with the integer shift 3. -/
def intShiftConfig : LengthDistributionConfig := ⟨2, 4/5, 3⟩

/-! ### Concrete run computations -/

theorem picky_attempt_bad (i : Nat) (h6 : i ≠ 6) (h15 : i ≠ 15) :
    generateAttempt pickySpec (pickyEnvs i) = .retry := by
  unfold pickyEnvs
  rw [if_neg (by push_neg; exact ⟨h6, h15⟩)]
  decide

theorem picky_attempt_good6 :
    generateAttempt pickySpec (pickyEnvs 6) = .accepted pickyQat := by
  decide

theorem picky_attempt_good15 :
    generateAttempt pickySpec (pickyEnvs 15) = .accepted pickyQat := by
  decide

/-- First sample of `pickyInst`: six retries then acceptance, leaving the
instance's counter at 6 after 7 `generate` calls. -/
theorem pickyRun1 : runGenerate pickySpec pickyEnvs 0 0 = .accepted pickyQat 6 7 := by
  have hchain := runGenerate_retry_chain pickySpec pickyEnvs 6 0 0
    (fun i h1 h2 => picky_attempt_bad i (by omega) (by omega)) (by decide)
  simp only [Nat.zero_add] at hchain
  rw [hchain, runGenerate_accepted 6 6 picky_attempt_good6]

/-- Second sample of `pickyInst` with the carried-over counter 6: only four
retries remain, so the run exits fatally before reaching the acceptable
draft at call 15. -/
theorem pickyRun2 : runGenerate pickySpec pickyEnvs 6 7 = .fatal 10 12 := by
  have hchain := runGenerate_retry_chain pickySpec pickyEnvs 4 6 7
    (fun i h1 h2 => picky_attempt_bad i (by omega) (by omega)) (by decide)
  rw [hchain]
  exact runGenerate_retry_fatal (picky_attempt_bad 11 (by omega) (by omega)) (by decide)

/-- The same attempt stream from call 7 on, entered with a fresh counter:
eight retries then acceptance at call 15. -/
theorem pickyRunFresh : runGenerate pickySpec pickyEnvs 0 7 = .accepted pickyQat 8 16 := by
  have hchain := runGenerate_retry_chain pickySpec pickyEnvs 8 0 7
    (fun i h1 h2 => picky_attempt_bad i (by omega) (by omega)) (by decide)
  simp only [Nat.zero_add] at hchain
  rw [hchain, runGenerate_accepted 8 15 picky_attempt_good15]

theorem mixed_attempt_bad (i : Nat) (h2 : i ≠ 2) :
    generateAttempt pickySpec (mixedEnvs i) = .retry := by
  unfold mixedEnvs
  rw [if_neg h2]
  decide

theorem mixed_attempt_good2 :
    generateAttempt pickySpec (mixedEnvs 2) = .accepted pickyQat := by
  decide

theorem accept_attempt : generateAttempt acceptSpec draftEnv = .accepted acceptQat := by
  decide

/-- First sample of `mixedInst`: two retries then acceptance, leaving the
counter at 2 after 3 calls. -/
theorem mixedRun1 : runGenerate mixedInst.spec mixedInst.envs 0 0 = .accepted pickyQat 2 3 := by
  have hchain := runGenerate_retry_chain pickySpec mixedEnvs 2 0 0
    (fun i h1 h2 => mixed_attempt_bad i (by omega)) (by decide)
  simp only [Nat.zero_add] at hchain
  show runGenerate pickySpec mixedEnvs 0 0 = .accepted pickyQat 2 3
  rw [hchain, runGenerate_accepted 2 2 mixed_attempt_good2]

/-! ### Claim theorems -/

/-- C1: with a verification chain that rejects every candidate (grounding
verdict always false), a fresh generator run performs exactly
`MAX_RETRIES = 10` retry attempts (the counter reaches 10, after
`MAX_RETRIES + 1` invocations of `generate`) and then exits fatally via
`sys.exit(1)`; the exit aborts the entire factory run, producing no batch,
rather than skipping the current sample. -/
theorem generator_c1_retry_exhaustion_fatal (g : GeneratorSpec) (envs : Nat → AttemptEnv)
    (hverify : ∀ qa, (g.verify qa).is_correct = false) :
    runGenerate g envs 0 0 = .fatal MAX_RETRIES (MAX_RETRIES + 1) ∧
    ∀ number_of_samples : Nat, 1 ≤ number_of_samples →
      factoryGenerate [(⟨g, envs⟩, 1)] number_of_samples = .error () := by
  refine ⟨runGenerate_fatal_of_verify_false envs hverify, ?_⟩
  intro n hn
  obtain ⟨m, rfl⟩ : ∃ m, n = m + 1 := ⟨n - 1, by omega⟩
  have hcount : (pyInt (((m + 1 : Nat) : ℚ) * 1)).toNat = m + 1 := by
    rw [mul_one, pyInt, if_pos (by positivity), Int.floor_natCast]
    simp
  simp only [factoryGenerate, hcount, runSamples,
    runGenerate_fatal_of_verify_false envs hverify]

/-- C1 witness: a concrete always-rejecting strategy exhausts the retry
budget and aborts a 3-sample factory run. -/
theorem generator_c1_retry_exhaustion_fatal_witness :
    runGenerate failSpec (fun _ => draftEnv) 0 0 = .fatal MAX_RETRIES (MAX_RETRIES + 1) ∧
    factoryGenerate [(⟨failSpec, fun _ => draftEnv⟩, 1)] 3 = .error () := by
  have h := generator_c1_retry_exhaustion_fatal failSpec (fun _ => draftEnv) (fun qa => rfl)
  exact ⟨h.1, h.2 3 (by norm_num)⟩

/-- C2 (amended): the batch allocator requests exactly
`int(total * proportion)` accepted samples from each strategy in plan
order, appending each to the output in completion order, so the produced
batch length is the sum of the per-strategy truncated counts; that sum is
at most `total` whenever the proportions are non-negative and sum to at
most 1 — but a plan that is valid only thanks to the +0.01 tolerance can
exceed `total`. -/
theorem qafactory_c2_allocation (generators : List (GenInstance × ℚ)) (number_of_samples : Nat)
    (hacc : ∀ gp ∈ generators, ∀ i : Nat,
      ∃ qat, generateAttempt gp.1.spec (gp.1.envs i) = .accepted qat) :
    (∃ l, factoryGenerate generators number_of_samples = .ok l ∧
      l.length = (factoryCounts (generators.map Prod.snd) number_of_samples).sum) ∧
    ((∀ p ∈ generators.map Prod.snd, 0 ≤ p) → (generators.map Prod.snd).sum ≤ 1 →
      (factoryCounts (generators.map Prod.snd) number_of_samples).sum ≤ number_of_samples) :=
  ⟨factoryGenerate_length generators hacc number_of_samples,
   fun hpos hsum => sum_factoryCounts_le_total _ _ hpos hsum⟩

/-- C2 witness: one always-accepting strategy at proportion 1/2 with
total 4 produces a batch of length 2 ≤ 4. -/
theorem qafactory_c2_allocation_witness :
    (∃ l, factoryGenerate [(acceptInst, 1/2)] 4 = .ok l ∧
      l.length = (factoryCounts ([(acceptInst, (1/2 : ℚ))].map Prod.snd) 4).sum) ∧
    (factoryCounts ([(acceptInst, (1/2 : ℚ))].map Prod.snd) 4).sum ≤ 4 := by
  have h := qafactory_c2_allocation [(acceptInst, 1/2)] 4
    (by
      intro gp hmem i
      simp only [List.mem_singleton] at hmem
      subst hmem
      exact ⟨acceptQat, accept_attempt⟩)
  exact ⟨h.1, h.2 (by intro p hp; simp at hp; rw [hp]; norm_num) (by norm_num)⟩

/-- C2 counterexample: the plan `[0.5025, 0.5025]` passes construction
validation (sum 1.005 is within the ±0.01 tolerance, both proportions in
[0,1]), yet with total 1000 the allocator produces 502 + 502 = 1004 > 1000
samples, refuting "the sum of the per-strategy floors is at most total"
for valid plans. -/
theorem qafactory_c2_counterexample :
    mkQAFactory [(acceptInst, halfPlus), (acceptInst, halfPlus)] =
      .ok [(acceptInst, halfPlus), (acceptInst, halfPlus)] ∧
    batchLength (factoryGenerate [(acceptInst, halfPlus), (acceptInst, halfPlus)] 1000) =
      some 1004 ∧
    1000 < 1004 := by
  refine ⟨?_, ?_, by norm_num⟩
  · unfold mkQAFactory
    rw [if_neg ?hsum, if_neg ?hrange]
    case hsum =>
      have : ([(acceptInst, halfPlus), (acceptInst, halfPlus)].map Prod.snd).sum
          - 1 = (1/200 : ℚ) := by
        simp [halfPlus]
        norm_num
      simp only [this]
      rw [abs_of_nonneg (by norm_num)]
      norm_num
    case hrange =>
      simp [halfPlus]
      norm_num
  · obtain ⟨l, hl, hlen⟩ := factoryGenerate_length
      [(acceptInst, halfPlus), (acceptInst, halfPlus)]
      (by
        intro gp hmem i
        simp only [List.mem_cons, List.not_mem_nil, or_false] at hmem
        rcases hmem with h | h <;> (subst h; exact ⟨acceptQat, accept_attempt⟩))
      1000
    have hcount : pyInt ((1000 : ℚ) * halfPlus) = 502 := by
      rw [pyInt, if_pos (by norm_num [halfPlus])]
      norm_num [halfPlus, Int.floor_eq_iff]
    have hcounts : factoryCounts ([(acceptInst, halfPlus), (acceptInst, halfPlus)].map
        Prod.snd) 1000 = [502, 502] := by
      simp [factoryCounts, hcount]
    rw [hl]
    show some l.length = some 1004
    rw [hlen, hcounts]
    norm_num

/-- C3: constructing a `QAFactory` succeeds if and only if the proportions
sum to 1.0 within ±0.01 and every proportion lies in [0,1]; otherwise a
`ValueError` is raised before any generation work. -/
theorem qafactory_c3_validation {α : Type} (generators : List (α × ℚ)) :
    mkQAFactory generators = .ok generators ↔
      |(generators.map Prod.snd).sum - 1| ≤ 1/100 ∧
        ∀ gp ∈ generators, 0 ≤ gp.2 ∧ gp.2 ≤ 1 := by
  have hdef : mkQAFactory generators =
      if |(generators.map Prod.snd).sum - 1| > 1/100 then
        .error "Generator percentages must sum to 1.0"
      else if generators.any (fun gp => ¬ (0 ≤ gp.2 ∧ gp.2 ≤ 1)) then
        .error "Percentage must be between 0.0 and 1.0"
      else .ok generators := rfl
  rw [hdef]
  split_ifs with h1 h2
  · constructor
    · intro h
      cases h
    · rintro ⟨ha, -⟩
      exact absurd ha (not_le.mpr h1)
  · constructor
    · intro h
      cases h
    · rintro ⟨-, hb⟩
      simp only [List.any_eq_true, decide_eq_true_eq] at h2
      obtain ⟨gp, hmem, hgp⟩ := h2
      exact absurd (hb gp hmem) hgp
  · refine iff_of_true rfl ⟨not_lt.mp h1, ?_⟩
    simp only [List.any_eq_true, decide_eq_true_eq] at h2
    push_neg at h2
    exact fun gp hmem => h2 gp hmem

/-- C4 (amended): the context builder walks the fragments in order,
emitting a title header exactly when the current fragment's title differs
from the immediately preceding one AND is non-empty (an empty title emits
no header but still updates the tracked previous title), and one labeled
`CHUNK_ID`/`Content` block per fragment in order; on the spec's example
`[A/T/0, A/T/1, B/U/0]` the parts are exactly header `T`, both doc-A
chunks, header `U`, the doc-B chunk — two headers, `T`'s preceding both
doc-A chunks. -/
theorem contextassembler_c4_headers :
    (∀ (frags : List Fragment) (prev : Option String),
      headerCount (buildContextParts prev frags) = headerChanges prev frags) ∧
    (∀ (frags : List Fragment) (prev : Option String),
      chunkBlocks (buildContextParts prev frags) = frags.map fun f => (f.id, f.content)) ∧
    buildContextParts none [fragA0, fragA1, fragB0] =
      [.header "T", .chunk "a0" "alpha zero", .chunk "a1" "alpha one",
        .header "U", .chunk "b0" "beta zero"] ∧
    headerCount (buildContextParts none [fragA0, fragA1, fragB0]) = 2 :=
  ⟨fun frags prev => headerCount_buildContextParts frags prev,
   fun frags prev => chunkBlocks_buildContextParts frags prev,
   by decide, by decide⟩

/-- C4 counterexample: a header is NOT emitted whenever the title differs
from the previous one.  On `[T-titled, empty-titled]` the title differs at
both positions (two title changes) yet only one header is emitted, because
`if current_title:` suppresses the header for the empty title; moreover on
`[T-titled, empty-titled, T-titled]` the `T` header is emitted twice,
since the empty title overwrote `previous_title`. -/
theorem contextassembler_c4_counterexample :
    titleChanges none [fragT, fragEmptyTitle] = 2 ∧
    headerCount (buildContextParts none [fragT, fragEmptyTitle]) = 1 ∧
    buildContextParts none [fragT, fragEmptyTitle, fragT2] =
      [.header "T", .chunk "t0" "gamma zero", .chunk "t1" "gamma one",
        .header "T", .chunk "t2" "gamma two"] := by
  refine ⟨by decide, by decide, by decide⟩

/-- C5: the context builder raises exactly on the empty fragment sequence
(`ValueError`, i.e. `EmptyContext`); every non-empty sequence yields a
text. -/
theorem contextassembler_c5_empty :
    (∀ frags : List Fragment, (∃ s, buildContext frags = .ok s) ↔ frags ≠ []) ∧
    buildContext [] = .error "No search results found. Cannot build context." := by
  constructor
  · intro frags
    constructor
    · rintro ⟨s, hs⟩ rfl
      cases hs
    · intro h
      unfold buildContext
      rw [if_neg (by simpa [List.isEmpty_iff] using h)]
      exact ⟨_, rfl⟩
  · rfl

/-- C6: each strategy's overall verdict is the short-circuiting AND of its
predicates, with the failing predicate's reason propagated inside the
returned verdict: the single-fragment chain is the grounding
(chunk-connection) predicate alone; the multi-fragment chain runs
grounding first and the multi-hop predicate second (never consulted when
grounding fails). -/
theorem verification_c6_chain (conn mh : QA → QAVerificationResult) (qa : QA) :
    ((verifySingleHop conn qa).is_correct = (conn qa).is_correct) ∧
    ((conn qa).is_correct = false →
      (verifySingleHop conn qa).reason = connFailReason qa (conn qa).reason) ∧
    ((verifyMultiHop conn mh qa).is_correct = ((conn qa).is_correct && (mh qa).is_correct)) ∧
    ((conn qa).is_correct = false → ∀ mh' : QA → QAVerificationResult,
      verifyMultiHop conn mh qa = verifyMultiHop conn mh' qa) ∧
    ((conn qa).is_correct = false →
      (verifyMultiHop conn mh qa).reason = connFailReason qa (conn qa).reason) ∧
    ((conn qa).is_correct = true → (mh qa).is_correct = false →
      (verifyMultiHop conn mh qa).reason = multiHopFailReason qa (mh qa).reason) := by
  cases hc : (conn qa).is_correct <;> cases hm : (mh qa).is_correct <;>
    simp [verifySingleHop, verifyMultiHop, hc, hm]

/-- C6 witness: the chain instantiated with a failing grounding oracle. -/
theorem verification_c6_chain_witness :
    (verifySingleHop alwaysFailVerdict feeQA).reason =
      connFailReason feeQA (alwaysFailVerdict feeQA).reason ∧
    (verifyMultiHop alwaysFailVerdict alwaysPassVerdict feeQA =
      verifyMultiHop alwaysFailVerdict alwaysFailVerdict feeQA) :=
  ⟨(verification_c6_chain alwaysFailVerdict alwaysPassVerdict feeQA).2.1 rfl,
   (verification_c6_chain alwaysFailVerdict alwaysPassVerdict feeQA).2.2.2.1 rfl
     alwaysFailVerdict⟩

/-- C7: within one generation attempt, a context-build error, a
model-invoked abstain tool call, and a failing verification chain each end
the attempt in the retry transition (no error propagates); an abstain
retries with no verification consulted; and each retry transition consumes
exactly one unit of the bounded budget, incrementing the instance's
counter by one. -/
theorem generator_c7_transient_retry (g : GeneratorSpec) (env : AttemptEnv)
    (envs : Nat → AttemptEnv) (qa : QA) (rc ci : Nat) :
    (env.seedChunks = [] → generateAttempt g env = .retry) ∧
    (env.llm = .abstain → ∀ verify' : QA → QAVerificationResult,
      generateAttempt ⟨verify', g.tags, g.fetchByIds⟩ env = .retry) ∧
    (env.llm = .draft qa → (g.verify qa).is_correct = false →
      generateAttempt g env = .retry) ∧
    (generateAttempt g (envs ci) = .retry → rc < MAX_RETRIES →
      runGenerate g envs rc ci = runGenerate g envs (rc + 1) (ci + 1)) := by
  refine ⟨?_, ?_, ?_, fun h1 h2 => runGenerate_retry_step h1 h2⟩
  · intro h
    unfold generateAttempt buildContext
    simp [h]
  · intro h verify'
    unfold generateAttempt
    cases hb : buildContext env.seedChunks with
    | error e => rfl
    | ok c => simp [h]
  · intro hllm hver
    unfold generateAttempt
    cases hb : buildContext env.seedChunks with
    | error e => rfl
    | ok c => simp [hllm, hver]

/-- C7 witness: the three transient outcomes and the counter increment on
concrete inputs. -/
theorem generator_c7_transient_retry_witness :
    generateAttempt failSpec ⟨[], .draft feeQA, dummyDiv⟩ = .retry ∧
    generateAttempt ⟨feeSpec.verify, failSpec.tags, failSpec.fetchByIds⟩
      ⟨[fragA0], .abstain, dummyDiv⟩ = .retry ∧
    generateAttempt failSpec draftEnv = .retry ∧
    runGenerate failSpec (fun _ => draftEnv) 0 0 =
      runGenerate failSpec (fun _ => draftEnv) 1 1 := by
  have h := generator_c7_transient_retry failSpec ⟨[], .draft feeQA, dummyDiv⟩
    (fun _ => draftEnv) ⟨"q", "a", ["a0"]⟩ 0 0
  have h2 := generator_c7_transient_retry failSpec ⟨[fragA0], .abstain, dummyDiv⟩
    (fun _ => draftEnv) ⟨"q", "a", ["a0"]⟩ 0 0
  have h3 := generator_c7_transient_retry failSpec draftEnv
    (fun _ => draftEnv) ⟨"q", "a", ["a0"]⟩ 0 0
  exact ⟨h.1 rfl, h2.2.1 rfl feeSpec.verify, h3.2.2.1 rfl rfl,
    h3.2.2.2 (by decide) (by decide)⟩

/-- C8: an accepted attempt emits a `QATagged` holding the candidate's
question and answer, the strategy's fixed tag set, the diversity profile
sampled for that attempt, the candidate's claimed chunk ids, and the
contents the backend currently returns for those ids; on the spec's
end-to-end scenario (seed `{id: c1, content: "Fee is $500"}`, passing
mocked grounding) the emitted record has
`tags.question_type = single_hop_same_doc` and
`chunk_content = ["Fee is $500"]`. -/
theorem generator_c8_accepted_record (g : GeneratorSpec) (env : AttemptEnv) (qa : QA) :
    (env.llm = .draft qa → env.seedChunks ≠ [] → (g.verify qa).is_correct = true →
      generateAttempt g env = .accepted
        { question := qa.question
          ground_truth_answer := qa.ground_truth_answer
          tags := g.tags
          diversity_injection := env.diversity
          chunk_ids := qa.chunk_ids
          chunk_content := (g.fetchByIds qa.chunk_ids).map Fragment.content }) ∧
    (generateAttempt feeSpec feeEnv = .accepted feeTagged ∧
      feeTagged.tags.lookup "question_type" = some "single_hop_same_doc" ∧
      feeTagged.chunk_content = ["Fee is $500"]) := by
  constructor
  · intro hllm hne hver
    unfold generateAttempt
    cases hb : buildContext env.seedChunks with
    | error e =>
      exact absurd hb (by
        unfold buildContext
        rw [if_neg (by simpa [List.isEmpty_iff] using hne)]
        exact fun h => Except.noConfusion h)
    | ok c => simp [hllm, hver, getChunkContentByIds]
  · exact ⟨by decide, by decide, by decide⟩

/-- C8 witness: the general accepted-record shape instantiated on the
end-to-end scenario. -/
theorem generator_c8_accepted_record_witness :
    generateAttempt feeSpec feeEnv = .accepted
      { question := feeQA.question
        ground_truth_answer := feeQA.ground_truth_answer
        tags := feeSpec.tags
        diversity_injection := feeEnv.diversity
        chunk_ids := feeQA.chunk_ids
        chunk_content := (feeSpec.fetchByIds feeQA.chunk_ids).map Fragment.content } :=
  (generator_c8_accepted_record feeSpec feeEnv feeQA).1 rfl (by decide) (by decide)

/-- C9 (amended): the retry counter is mutable state owned by the generator
instance, initialized to 0 at construction and never reset between
samples: when a sample is accepted with the counter at `rc'`, the next
sample of the same instance starts from `rc'` (not from 0), so only
`MAX_RETRIES - rc'` retries remain before the fatal exit — the budget is
shared across all samples of one instance, though each instance (strategy)
still owns an independent counter. -/
theorem generator_c9_counter_persistence (inst : GenInstance) (st : Nat × Nat) (n : Nat)
    (qat : QATagged) (rc' ci' : Nat)
    (haccept : runGenerate inst.spec inst.envs st.1 st.2 = .accepted qat rc' ci') :
    (runSamples inst st (n + 1) =
      (runSamples inst (rc', ci') n).map fun lst => (qat :: lst.1, lst.2)) ∧
    (rc' ≤ MAX_RETRIES →
      (∀ i, ci' ≤ i → generateAttempt inst.spec (inst.envs i) = .retry) →
      runGenerate inst.spec inst.envs rc' ci' =
        .fatal MAX_RETRIES (ci' + (MAX_RETRIES - rc') + 1)) := by
  constructor
  · simp only [runSamples, haccept]
  · intro hrc hret
    exact runGenerate_fatal_of_retries inst.spec inst.envs ci' hret rc' ci' le_rfl hrc

/-- C9 witness: an instance that accepts its first sample after two retries
carries the counter 2 into the next sample, leaving eight retries before
the fatal exit. -/
theorem generator_c9_counter_persistence_witness :
    (runSamples mixedInst (0, 0) (0 + 1) =
      (runSamples mixedInst (2, 3) 0).map fun lst => (pickyQat :: lst.1, lst.2)) ∧
    runGenerate mixedInst.spec mixedInst.envs 2 3 =
      .fatal MAX_RETRIES (3 + (MAX_RETRIES - 2) + 1) := by
  have h := generator_c9_counter_persistence mixedInst (0, 0) 0 pickyQat 2 3 mixedRun1
  exact ⟨h.1, h.2 (by decide) (fun i hi => mixed_attempt_bad i (by omega))⟩

/-- C9 counterexample: the counter is not reset between samples.  With
`pickyInst` — whose attempt stream accepts at calls 6 and 15 — the first
sample is accepted after six retries; under the claim the second sample
would have a fresh budget of ten retries and be accepted at call 15 (its
eighth retry), but the run actually aborts fatally after only four more
retries, so the two-sample request fails.  The identical second-sample
attempt stream entered with a reset counter is accepted. -/
theorem generator_c9_counterexample :
    runSamples pickyInst (0, 0) 2 = .error () ∧
    runGenerate pickySpec pickyEnvs 6 7 = .fatal 10 12 ∧
    runGenerate pickySpec pickyEnvs 0 7 = .accepted pickyQat 8 16 := by
  refine ⟨?_, pickyRun2, pickyRunFresh⟩
  have h1 : runGenerate pickyInst.spec pickyInst.envs 0 0 = .accepted pickyQat 6 7 :=
    pickyRun1
  have h2 : runGenerate pickyInst.spec pickyInst.envs 6 7 = .fatal 10 12 :=
    pickyRun2
  simp only [runSamples, h1, h2, Except.map]

/-- C10 (amended): the response-length sampler returns
`int(max(shift, draw + shift))`, an integer always at least `⌊shift⌋`; when
the configured shift is itself an integer — as in the spec's `shift = 3`
scenario — every draw is at least `shift`.  (For a non-integer shift the
result can fall below the shift value, see the counterexample.) -/
theorem diversity_c10_length_bound (config : LengthDistributionConfig) (draw : ℚ) :
    ⌊config.shift⌋ ≤ getResponseLength config draw ∧
    (∀ n : ℤ, config.shift = (n : ℚ) → n ≤ getResponseLength config draw) := by
  have hmax : config.shift ≤ max config.shift (draw + config.shift) := le_max_left _ _
  have hfloor : ⌊config.shift⌋ ≤ ⌊max config.shift (draw + config.shift)⌋ :=
    Int.floor_le_floor hmax
  have hpy : ⌊max config.shift (draw + config.shift)⌋ ≤
      pyInt (max config.shift (draw + config.shift)) := by
    unfold pyInt
    split_ifs with h
    · exact le_refl _
    · exact Int.floor_le_ceil _
  have hbase : ⌊config.shift⌋ ≤ getResponseLength config draw := le_trans hfloor hpy
  refine ⟨hbase, fun n hn => ?_⟩
  have : ⌊config.shift⌋ = n := by rw [hn, Int.floor_intCast]
  omega

/-- C10 witness: with the integer shift 3 every sampled length is ≥ 3. -/
theorem diversity_c10_length_bound_witness :
    (3 : ℤ) ≤ getResponseLength intShiftConfig 5 :=
  (diversity_c10_length_bound intShiftConfig 5).2 3 (by norm_num [intShiftConfig])

/-- C10 counterexample: with the configuration `{mean 2, sigma 0.8,
shift 3.5}` and a degenerate log-normal draw of 0, the sampler returns 3,
which is strictly below the shift value 3.5 — refuting "the result is at
least the shift value" for every configuration. -/
theorem diversity_c10_counterexample :
    getResponseLength badConfig 0 = 3 ∧ (3 : ℚ) < badConfig.shift := by
  constructor
  · show pyInt (max badConfig.shift (0 + badConfig.shift)) = 3
    have hm : max badConfig.shift ((0 : ℚ) + badConfig.shift) = 7/2 := by
      norm_num [badConfig]
    rw [hm, pyInt, if_pos (by norm_num)]
    norm_num [Int.floor_eq_iff]
  · norm_num [badConfig]

end QAGen
